import Mathlib

/-!
Shallow embedding of src/code/classifier/fine-tuning.py, an emotion-classification
fine-tuning script: data loading and label construction, stratified k-fold
splitting, per-fold metric computation, metric aggregation and persistence.

Numeric values carried by metrics are modelled as rationals; class labels as
naturals; pandas missing values (NaN in the emotion-B column) as Option.
-/

namespace FineTuning

/-- The nine-emotion label map (fine-tuning.py lines 19-22). -/
def MULTICLASS_LABEL_MAP : List (String × Nat) :=
  [("Joy", 0), ("Sadness", 1), ("Anger", 2), ("Fear", 3), ("Trust", 4),
   ("Disgust", 5), ("Surprise", 6), ("Anticipation", 7), ("Neutral", 8)]

/-- BINARY_LABEL_MAP = \x7b'Positive': 1, 'Negative': 0\x7d (line 24). -/
def BINARY_LABEL_MAP_Positive : Nat := 1

def BINARY_LABEL_MAP_Negative : Nat := 0

/-- Python dict lookup MULTICLASS_LABEL_MAP[s], as a total Option-valued map. -/
def multiclassLookup (s : String) : Option Nat :=
  (MULTICLASS_LABEL_MAP.find? (fun p => p.1 == s)).map Prod.snd

/-- A row of the input CSV: the sentence text, the emotion-A cell and the
emotion-B cell; emotion-B may be missing (pandas NaN), modelled as none. -/
structure Row where
  sentence : String
  emotionA : String
  emotionB : Option String
deriving DecidableEq, Repr

/-- Python exceptions that the modelled code can raise. -/
inductive PyError where
  | keyError : String → PyError
  | typeError : String → PyError
deriving DecidableEq, Repr

/-- Dict lookup that raises KeyError on a missing key, as in Python. -/
def lookupE (s : String) : Except PyError Nat :=
  match multiclassLookup s with
  | some v => Except.ok v
  | none => Except.error (PyError.keyError s)

/-- The per-row lambda of load_data lines 41-44: if pd.notna(emotion-B) the list
[MAP[emotion-A], MAP[emotion-B]] (left to right evaluation), else the singleton
[MAP[emotion-A]]. -/
def rowLabelList (r : Row) : Except PyError (List Nat) :=
  match r.emotionB with
  | some b =>
      match lookupE r.emotionA with
      | Except.error e => Except.error e
      | Except.ok a =>
          match lookupE b with
          | Except.error e => Except.error e
          | Except.ok vb => Except.ok [a, vb]
  | none =>
      match lookupE r.emotionA with
      | Except.error e => Except.error e
      | Except.ok a => Except.ok [a]

/-- Effectful map over a list, stopping at the first raised exception, as a
pandas column-wise apply does. -/
def exceptMapList (f : α → Except ε β) : List α → Except ε (List β)
  | [] => Except.ok []
  | a :: as =>
      match f a with
      | Except.error e => Except.error e
      | Except.ok b =>
          match exceptMapList f as with
          | Except.error e => Except.error e
          | Except.ok bs => Except.ok (b :: bs)

/-- The flattening step of load_data line 45: labels.apply(lambda x: x[0]). -/
def flattenLabel (l : List Nat) : Nat := l.headD 0

/-- A loaded dataframe in multiclass mode: the input rows plus the derived
integer column df['labels']. -/
structure LoadedDf where
  rows : List Row
  labels : List Nat
deriving DecidableEq, Repr

/-- load_data in multiclass mode (lines 40-45, 55): build the per-row label
lists, then flatten each to its first element. -/
def loadDataMulticlass (csv : List Row) : Except PyError LoadedDf := do
  let lists ← exceptMapList rowLabelList csv
  pure { rows := csv, labels := lists.map flattenLabel }

/-- The inner test of load_data line 51: emotion in [row['emotion-A'],
row['emotion-B']]; a NaN emotion-B compares unequal to every string. -/
def emotionHit (e : String) (r : Row) : Bool :=
  e == r.emotionA || r.emotionB == some e

/-- One step of the binary-label loop (lines 48-52): for a single row, append
to each emotion's list 1 if the emotion occurs in the row else 0. -/
def binaryStep (d : List (String × List Nat)) (r : Row) : List (String × List Nat) :=
  d.map (fun p =>
    (p.1, p.2 ++ [if emotionHit p.1 r then BINARY_LABEL_MAP_Positive else BINARY_LABEL_MAP_Negative]))

/-- load_data in binary mode (lines 46-54): the dict binary_labels, one list
per emotion of MULTICLASS_LABEL_MAP, built row by row. -/
def binaryLabels (csv : List Row) : List (String × List Nat) :=
  csv.foldl binaryStep (MULTICLASS_LABEL_MAP.map (fun p => (p.1, [])))

/-- The value load_data returns: a dataframe in multiclass mode, the pair
(df, binary_labels) in binary mode (lines 54-55). -/
inductive LoadResult where
  | frame : LoadedDf → LoadResult
  | pair : List Row → List (String × List Nat) → LoadResult
deriving DecidableEq, Repr

/-- load_data(input_csv, multiclass), lines 34-55. -/
def load_data (csv : List Row) (multiclass : Bool) : Except PyError LoadResult :=
  if multiclass then do
    let df ← loadDataMulticlass csv
    pure (LoadResult.frame df)
  else
    pure (LoadResult.pair csv (binaryLabels csv))

/-- display_emotion_counts(df), lines 57-64: it indexes df with a list of
column names, which succeeds on a dataframe and raises TypeError when main has
bound the (df, binary_labels) tuple returned by binary-mode load_data. -/
def display_emotion_counts : LoadResult → Except PyError Unit
  | LoadResult.frame _ => Except.ok Unit.unit
  | LoadResult.pair _ _ =>
      Except.error (PyError.typeError "tuple indices must be integers or slices, not list")

/-- df['sentence'].to_numpy() in main (line 183), raising TypeError on the
binary-mode tuple. -/
def getColumnTexts : LoadResult → Except PyError (List String)
  | LoadResult.frame df => Except.ok (df.rows.map Row.sentence)
  | LoadResult.pair _ _ =>
      Except.error (PyError.typeError "tuple indices must be integers or slices, not str")

/-- df['labels'].to_numpy() in main (line 184), raising TypeError on the
binary-mode tuple. -/
def getColumnLabels : LoadResult → Except PyError (List Int)
  | LoadResult.frame df => Except.ok (df.labels.map Int.ofNat)
  | LoadResult.pair _ _ =>
      Except.error (PyError.typeError "tuple indices must be integers or slices, not str")

/-- A Hugging Face tokenizer, abstracted to its name and its per-text encoding
into token ids. -/
structure Tokenizer where
  nameOrPath : String
  encode : String → List Nat

/-- tokenizer(texts, truncation=True, padding=True, max_length=128): truncate
each encoding to 128 tokens, then pad all to the batch maximum length. -/
def tokenizeBatch (tok : Tokenizer) (texts : List String) : List (List Nat) :=
  let truncated := texts.map (fun t => (tok.encode t).take 128)
  let maxLen := truncated.foldl (fun m l => max m l.length) 0
  truncated.map (fun l => l ++ List.replicate (maxLen - l.length) 0)

/-- preprocess_data(texts, labels, tokenizer), lines 66-69: tokenize the texts
and return the encodings together with the labels argument. -/
def preprocess_data (texts : List String) (labels : List Int) (tok : Tokenizer) :
    List (List Nat) × List Int :=
  (tokenizeBatch tok texts, labels)

/-- np.argmax on a row of scores: index of the maximum, first occurrence on
ties; 0 on an empty row. Auxiliary recursion carrying best value, best index
and current index. -/
def npArgmaxAux : List ℚ → ℚ → Nat → Nat → Nat
  | [], _, bi, _ => bi
  | x :: xs, best, bi, i =>
      if best < x then npArgmaxAux xs x i (i + 1) else npArgmaxAux xs best bi (i + 1)

/-- np.argmax over the class axis of one prediction row. -/
def npArgmax : List ℚ → Nat
  | [] => 0
  | x :: xs => npArgmaxAux xs x 0 1

/-- sklearn accuracy_score: fraction of positions where prediction equals
label. -/
def accuracy_score (yTrue yPred : List Nat) : ℚ :=
  (((yTrue.zip yPred).countP (fun p => p.1 == p.2) : ℚ)) / ((yTrue.length : ℚ))

/-- The class labels sklearn reports on when labels=None and average=None: the
sorted distinct values present in y_true or y_pred. -/
def presentClasses (yTrue yPred : List Nat) : List Nat :=
  ((yTrue ++ yPred).dedup).mergeSort (fun a b => a ≤ b)

/-- True positives of class c. -/
def tpCount (yTrue yPred : List Nat) (c : Nat) : Nat :=
  (yTrue.zip yPred).countP (fun p => p.1 == c && p.2 == c)

/-- Per-class precision with sklearn zero_division behaviour (0 when the class
is never predicted). -/
def precisionClass (yTrue yPred : List Nat) (c : Nat) : ℚ :=
  if yPred.count c = 0 then 0 else ((tpCount yTrue yPred c : ℚ)) / ((yPred.count c : ℚ))

/-- Per-class recall with sklearn zero_division behaviour (0 when the class
has no true instances). -/
def recallClass (yTrue yPred : List Nat) (c : Nat) : ℚ :=
  if yTrue.count c = 0 then 0 else ((tpCount yTrue yPred c : ℚ)) / ((yTrue.count c : ℚ))

/-- Per-class F1: harmonic mean of precision and recall, 0 when both are 0. -/
def f1Class (yTrue yPred : List Nat) (c : Nat) : ℚ :=
  let p := precisionClass yTrue yPred c
  let r := recallClass yTrue yPred c
  if p + r = 0 then 0 else 2 * p * r / (p + r)

/-- sklearn precision_recall_fscore_support(y_true, y_pred, average=None):
per-class precision, recall, f1 and support lists, one entry per present
class, no averaging. -/
def precision_recall_fscore_support (yTrue yPred : List Nat) :
    List ℚ × List ℚ × List ℚ × List Nat :=
  let cs := presentClasses yTrue yPred
  (cs.map (precisionClass yTrue yPred), cs.map (recallClass yTrue yPred),
   cs.map (f1Class yTrue yPred), cs.map (fun c => yTrue.count c))

/-- The record compute_metrics returns (lines 78-83). -/
structure MetricsRecord where
  accuracy : ℚ
  precision : List ℚ
  recall_ : List ℚ
  f1 : List ℚ
deriving DecidableEq, Repr

/-- compute_metrics(predictions), lines 71-83: argmax the scores over the class
axis, then accuracy plus per-class precision/recall/f1 lists. -/
def compute_metrics (probs : List (List ℚ)) (labels : List Nat) : MetricsRecord :=
  let preds := probs.map npArgmax
  let prfs := precision_recall_fscore_support labels preds
  { accuracy := accuracy_score labels preds,
    precision := prfs.1, recall_ := prfs.2.1, f1 := prfs.2.2.1 }

/-- The metric fields of a trainer.evaluate() result used downstream. -/
structure FoldMetrics where
  eval_accuracy : ℚ
  eval_precision : List ℚ
  eval_recall : List ℚ
  eval_f1 : List ℚ
deriving DecidableEq, Repr

/-- np.mean of a list of scalars. -/
def npMean (l : List ℚ) : ℚ := l.sum / ((l.length : ℚ))

/-- The aggregate record (lines 163-168). -/
structure AvgMetrics where
  accuracy : ℚ
  precision : ℚ
  recall_ : ℚ
  f1 : ℚ
deriving DecidableEq, Repr

/-- aggregate_metrics(fold_metrics), lines 162-169: mean of eval_accuracy, and
mean over folds of the per-fold mean of each per-class list. -/
def aggregate_metrics (fold_metrics : List FoldMetrics) : AvgMetrics :=
  { accuracy := npMean (fold_metrics.map FoldMetrics.eval_accuracy),
    precision := npMean (fold_metrics.map (fun m => npMean m.eval_precision)),
    recall_ := npMean (fold_metrics.map (fun m => npMean m.eval_recall)),
    f1 := npMean (fold_metrics.map (fun m => npMean m.eval_f1)) }

/-- A deterministic pseudo-random key, modelling the numpy RandomState stream
used by the shuffling stratified splitter. -/
def shuffleKey (seed x : Nat) : Nat :=
  let a := (seed * 1664525 + x * 2654435761 + 1013904223) % 4294967296
  ((a ^^^ (a / 65536)) * 2246822519) % 4294967296

/-- The seeded shuffle applied to each class's members: reorder by
pseudo-random key. -/
def npShuffle (seed : Nat) (l : List Nat) : List Nat :=
  l.mergeSort (fun a b => shuffleKey seed a ≤ shuffleKey seed b)

/-- Indices of the samples of class c, in dataset order. -/
def classMembers (labels : List Int) (c : Int) : List Nat :=
  (List.range labels.length).filter (fun j => labels.getD j 0 == c)

/-- StratifiedKFold test-fold sizes for a class of n members: n/k per fold, the
remainder distributed to the first n%k folds. -/
def foldSizes (k n : Nat) : List Nat :=
  (List.range k).map (fun i => n / k + if i < n % k then 1 else 0)

/-- The fold owning position p when positions are dealt out in consecutive
blocks of the given sizes. -/
def foldOfPos : List Nat → Nat → Nat
  | [], _ => 0
  | s :: rest, p => if p < s then 0 else foldOfPos rest (p - s) + 1

/-- The test fold assigned to sample j: its class's shuffled members are split
into blocks of the stratified fold sizes, and j falls in one block. -/
def testFoldOf (k seed : Nat) (labels : List Int) (j : Nat) : Nat :=
  let m := npShuffle seed (classMembers labels (labels.getD j 0))
  foldOfPos (foldSizes k m.length) (m.indexOf j)

/-- Test indices of fold i: the samples assigned fold i, ascending. -/
def testIdx (k seed : Nat) (labels : List Int) (i : Nat) : List Nat :=
  (List.range labels.length).filter (fun j => testFoldOf k seed labels j == i)

/-- Train indices of fold i: all samples not assigned fold i, ascending. -/
def trainIdx (k seed : Nat) (labels : List Int) (i : Nat) : List Nat :=
  (List.range labels.length).filter (fun j => !(testFoldOf k seed labels j == i))

/-- The sequence of (train_idx, test_idx) pairs yielded by skf.split. -/
def skfSplit (k seed : Nat) (labels : List Int) : List (List Nat × List Nat) :=
  (List.range k).map (fun i => (trainIdx k seed labels i, testIdx k seed labels i))

/-- The effective shuffling seed of StratifiedKFold: the fixed random_state
when one is given, otherwise fresh environment entropy. -/
def effectiveSeed (randomState : Option Nat) (env : Nat) : Nat :=
  randomState.getD env

/-- StratifiedKFold(n_splits=k, shuffle=True, random_state=rs).split, in an
execution whose ambient entropy is env. -/
def stratifiedKFoldSplit (k : Nat) (randomState : Option Nat) (env : Nat)
    (labels : List Int) : List (List Nat × List Nat) :=
  skfSplit k (effectiveSeed randomState env) labels

/-- The splits enumerated by cross_validate_model (line 87 and line 93):
random_state is the literal 42. -/
def crossValidateSplits (k env : Nat) (labels : List Int) : List (List Nat × List Nat) :=
  stratifiedKFoldSplit k (some 42) env labels

/-- The pretrained model loaded in a fold (lines 118-120). -/
structure ModelSpec where
  modelId : String
  numLabels : Nat
deriving DecidableEq, Repr

/-- num_labels=len(MULTICLASS_LABEL_MAP) if multiclass else 2 (line 119). -/
def num_labels (multiclass : Bool) : Nat :=
  if multiclass then MULTICLASS_LABEL_MAP.length else 2

/-- Numpy fancy indexing xs[idx]. -/
def selectIdx (xs : List α) (d : α) (idx : List Nat) : List α :=
  idx.map (fun i => xs.getD i d)

/-- What one iteration of the cross-validation loop does with its fold: the
split it received, the freshly loaded pretrained model, and the data slices it
fine-tunes and evaluates on. -/
structure FoldRun where
  trainIdx : List Nat
  testIdx : List Nat
  model : ModelSpec
  trainTexts : List String
  trainLabels : List Int
  testTexts : List String
  testLabels : List Int
deriving DecidableEq, Repr

/-- The per-fold actions of cross_validate_model (lines 93-143): for each
yielded split, slice the data by the train and test indices and load a fresh
pretrained model to fine-tune on the train slice. -/
def crossValidateRuns (model_id : String) (texts : List String) (labels : List Int)
    (k : Nat) (multiclass : Bool) (env : Nat) : List FoldRun :=
  (crossValidateSplits k env labels).map (fun s =>
    { trainIdx := s.1, testIdx := s.2,
      model := { modelId := model_id, numLabels := num_labels multiclass },
      trainTexts := selectIdx texts "" s.1, trainLabels := selectIdx labels 0 s.1,
      testTexts := selectIdx texts "" s.2, testLabels := selectIdx labels 0 s.2 })

/-- A scalar or list value carried in a persisted CSV cell. -/
inductive PyVal where
  | num : ℚ → PyVal
  | nums : List ℚ → PyVal
deriving DecidableEq, Repr

/-- The eval_ metric fields of one fold record. -/
def foldMetricsFields (m : FoldMetrics) : List (String × PyVal) :=
  [("eval_accuracy", PyVal.num m.eval_accuracy),
   ("eval_precision", PyVal.nums m.eval_precision),
   ("eval_recall", PyVal.nums m.eval_recall),
   ("eval_f1", PyVal.nums m.eval_f1)]

/-- A CSV file written to disk: its path and its records. -/
structure CsvFile where
  path : String
  records : List (List (String × PyVal))
deriving DecidableEq, Repr

/-- cross_validate_model (lines 85-160), abstracted over the evaluation
outcome of each fold (evalFn, the metrics trainer.evaluate() returned on fold
f): the fold_metrics.csv file it writes and the aggregated metrics it
returns. -/
def cross_validate_model (texts : List String) (labels : List Int)
    (k : Nat) (env : Nat) (output_dir : String) (evalFn : Nat → FoldMetrics) :
    CsvFile × AvgMetrics :=
  let splits := crossValidateSplits k env labels
  let fold_metrics := (List.range splits.length).map evalFn
  let fold_detailed := (List.range splits.length).map (fun (fold : Nat) =>
    ("fold", PyVal.num (((fold : ℚ)) + 1)) :: foldMetricsFields (evalFn fold))
  ({ path := output_dir ++ "/fold_metrics.csv", records := fold_detailed },
   aggregate_metrics fold_metrics)

/-- save_metrics(metrics, output_csv), lines 171-175: a single-row CSV of the
aggregated metrics. -/
def save_metrics (m : AvgMetrics) (output_csv : String) : CsvFile :=
  { path := output_csv,
    records := [[("accuracy", PyVal.num m.accuracy), ("precision", PyVal.num m.precision),
                 ("recall", PyVal.num m.recall_), ("f1", PyVal.num m.f1)]] }

/-- The path of the aggregated-metrics CSV (line 199). -/
def avgMetricsCsvPath (model_id : String) (multiclass : Bool) : String :=
  "./evaluation/" ++ model_id ++ "-" ++
    (if multiclass then "multiclass" else "binary") ++ "_metrics.csv"

/-- main (lines 177-200), abstracted over per-fold evaluation outcomes and
ambient entropy: load data, display counts, extract columns, cross-validate
with k=10, and persist; the result is the list of files written, or the
exception raised. -/
def main (model_id : String) (multiclass : Bool) (csv : List Row)
    (evalFn : Nat → FoldMetrics) (env : Nat) : Except PyError (List CsvFile) := do
  let r ← load_data csv multiclass
  let _ ← display_emotion_counts r
  let texts ← getColumnTexts r
  let labels ← getColumnLabels r
  let out := cross_validate_model texts labels 10 env "./evaluation" evalFn
  pure [out.1, save_metrics out.2 (avgMetricsCsvPath model_id multiclass)]

/-! ### Helper lemmas -/

theorem lookupE_ok_iff (s : String) : (∃ v, lookupE s = Except.ok v) ↔ (multiclassLookup s).isSome := by
  unfold lookupE
  cases h : multiclassLookup s <;> simp

theorem lookupE_ok_val (s : String) (v : Nat) (h : lookupE s = Except.ok v) :
    multiclassLookup s = some v := by
  unfold lookupE at h
  cases hm : multiclassLookup s <;> simp [hm] at h
  rw [h]

theorem lookupE_error (s : String) (e : PyError) (h : lookupE s = Except.error e) :
    e = PyError.keyError s ∧ multiclassLookup s = none := by
  unfold lookupE at h
  cases hm : multiclassLookup s <;> simp [hm] at h
  exact ⟨h.symm, rfl⟩

theorem multiclassLookup_lt (s : String) (v : Nat) (h : multiclassLookup s = some v) : v < 9 := by
  have hmem : ∀ p ∈ MULTICLASS_LABEL_MAP, p.2 < 9 := by decide
  unfold multiclassLookup at h
  cases hf : MULTICLASS_LABEL_MAP.find? (fun p => p.1 == s) with
  | none => simp [hf] at h
  | some p =>
      simp [hf] at h
      exact h ▸ hmem p (List.mem_of_find?_eq_some hf)

theorem exceptMapList_ok_iff (f : α → Except ε β) (l : List α) :
    (∃ bs, exceptMapList f l = Except.ok bs) ↔ ∀ a ∈ l, ∃ b, f a = Except.ok b := by
  induction l with
  | nil => simp [exceptMapList]
  | cons a as ih =>
      constructor
      · rintro ⟨bs, hbs⟩
        unfold exceptMapList at hbs
        cases hfa : f a with
        | error e => simp [hfa] at hbs
        | ok b =>
            cases hrest : exceptMapList f as with
            | error e => simp [hfa, hrest] at hbs
            | ok bs2 =>
                intro x hx
                rcases List.mem_cons.mp hx with h | h
                · exact ⟨b, h ▸ hfa⟩
                · exact (ih.mp ⟨bs2, hrest⟩) x h
      · intro hall
        obtain ⟨b, hb⟩ := hall a (List.mem_cons_self a as)
        obtain ⟨bs, hbs⟩ := ih.mpr (fun x hx => hall x (List.mem_cons_of_mem a hx))
        exact ⟨b :: bs, by simp [exceptMapList, hb, hbs]⟩

theorem exceptMapList_error (f : α → Except ε β) (l : List α) (e : ε)
    (h : exceptMapList f l = Except.error e) : ∃ a ∈ l, f a = Except.error e := by
  induction l with
  | nil => simp [exceptMapList] at h
  | cons a as ih =>
      unfold exceptMapList at h
      cases hfa : f a with
      | error e2 =>
          simp [hfa] at h
          exact ⟨a, List.mem_cons_self a as, h ▸ hfa⟩
      | ok b =>
          cases hrest : exceptMapList f as with
          | error e2 =>
              simp [hfa, hrest] at h
              obtain ⟨x, hx, hfx⟩ := ih (h ▸ hrest)
              exact ⟨x, List.mem_cons_of_mem a hx, hfx⟩
          | ok bs => simp [hfa, hrest] at h

theorem exceptMapList_ok_get (f : α → Except ε β) (l : List α) (bs : List β)
    (h : exceptMapList f l = Except.ok bs) :
    bs.length = l.length ∧
      ∀ i (hi : i < l.length) (hbi : i < bs.length), f (l.get ⟨i, hi⟩) = Except.ok (bs.get ⟨i, hbi⟩) := by
  induction l generalizing bs with
  | nil =>
      unfold exceptMapList at h
      simp at h
      subst h
      simp
  | cons a as ih =>
      unfold exceptMapList at h
      cases hfa : f a with
      | error e => simp [hfa] at h
      | ok b =>
          cases hrest : exceptMapList f as with
          | error e => simp [hfa, hrest] at h
          | ok bs2 =>
              simp [hfa, hrest] at h
              subst h
              obtain ⟨hlen, hget⟩ := ih bs2 hrest
              refine ⟨by simp [hlen], ?_⟩
              intro i hi hbi
              cases i with
              | zero => simpa using hfa
              | succ n =>
                  simp only [List.get_cons_succ]
                  exact hget n (by simpa using hi) (by simpa using hbi)

theorem rowLabelList_ok_iff (r : Row) :
    (∃ v, rowLabelList r = Except.ok v) ↔
      ((multiclassLookup r.emotionA).isSome ∧
        ∀ b, r.emotionB = some b → (multiclassLookup b).isSome) := by
  unfold rowLabelList
  cases hB : r.emotionB with
  | none =>
      simp only [hB]
      constructor
      · rintro ⟨v, hv⟩
        cases hfa : lookupE r.emotionA with
        | error e => simp [hfa] at hv
        | ok a => exact ⟨(lookupE_ok_iff _).mp ⟨a, hfa⟩, by simp⟩
      · rintro ⟨hA, _⟩
        obtain ⟨a, ha⟩ := (lookupE_ok_iff _).mpr hA
        exact ⟨[a], by simp [ha]⟩
  | some b =>
      simp only [hB]
      constructor
      · rintro ⟨v, hv⟩
        cases hfa : lookupE r.emotionA with
        | error e => simp [hfa] at hv
        | ok a =>
            cases hfb : lookupE b with
            | error e => simp [hfa, hfb] at hv
            | ok vb =>
                refine ⟨(lookupE_ok_iff _).mp ⟨a, hfa⟩, ?_⟩
                intro b2 hb2
                injection hb2 with h2
                subst h2
                exact (lookupE_ok_iff _).mp ⟨vb, hfb⟩
      · rintro ⟨hA, hB2⟩
        obtain ⟨a, ha⟩ := (lookupE_ok_iff _).mpr hA
        obtain ⟨vb, hvb⟩ := (lookupE_ok_iff _).mpr (hB2 b rfl)
        exact ⟨[a, vb], by simp [ha, hvb]⟩

theorem rowLabelList_error (r : Row) (e : PyError) (h : rowLabelList r = Except.error e) :
    ∃ s, e = PyError.keyError s ∧ multiclassLookup s = none := by
  unfold rowLabelList at h
  cases hB : r.emotionB with
  | none =>
      simp only [hB] at h
      cases hfa : lookupE r.emotionA with
      | error e2 =>
          simp [hfa] at h
          exact ⟨r.emotionA, (lookupE_error _ _ (h ▸ hfa)).1, (lookupE_error _ _ (h ▸ hfa)).2⟩
      | ok a => simp [hfa] at h
  | some b =>
      simp only [hB] at h
      cases hfa : lookupE r.emotionA with
      | error e2 =>
          simp [hfa] at h
          exact ⟨r.emotionA, (lookupE_error _ _ (h ▸ hfa)).1, (lookupE_error _ _ (h ▸ hfa)).2⟩
      | ok a =>
          cases hfb : lookupE b with
          | error e2 =>
              simp [hfa, hfb] at h
              exact ⟨b, (lookupE_error _ _ (h ▸ hfb)).1, (lookupE_error _ _ (h ▸ hfb)).2⟩
          | ok vb => simp [hfa, hfb] at h

theorem rowLabelList_ok_head (r : Row) (v : List Nat) (h : rowLabelList r = Except.ok v) :
    flattenLabel v = (multiclassLookup r.emotionA).getD 0 := by
  unfold rowLabelList at h
  cases hB : r.emotionB with
  | none =>
      simp only [hB] at h
      cases hfa : lookupE r.emotionA with
      | error e => simp [hfa] at h
      | ok a =>
          simp [hfa] at h
          simp [← h, flattenLabel, lookupE_ok_val _ _ hfa]
  | some b =>
      simp only [hB] at h
      cases hfa : lookupE r.emotionA with
      | error e => simp [hfa] at h
      | ok a =>
          cases hfb : lookupE b with
          | error e => simp [hfa, hfb] at h
          | ok vb =>
              simp [hfa, hfb] at h
              simp [← h, flattenLabel, lookupE_ok_val _ _ hfa]

theorem rowLabelList_ok_lt (r : Row) (v : List Nat) (h : rowLabelList r = Except.ok v) :
    ∀ x ∈ v, x < 9 := by
  unfold rowLabelList at h
  cases hB : r.emotionB with
  | none =>
      simp only [hB] at h
      cases hfa : lookupE r.emotionA with
      | error e => simp [hfa] at h
      | ok a =>
          simp [hfa] at h
          intro x hx
          rw [← h] at hx
          simp at hx
          exact hx ▸ multiclassLookup_lt _ _ (lookupE_ok_val _ _ hfa)
  | some b =>
      simp only [hB] at h
      cases hfa : lookupE r.emotionA with
      | error e => simp [hfa] at h
      | ok a =>
          cases hfb : lookupE b with
          | error e => simp [hfa, hfb] at h
          | ok vb =>
              simp [hfa, hfb] at h
              intro x hx
              rw [← h] at hx
              rcases List.mem_cons.mp hx with h1 | h1
              · exact h1 ▸ multiclassLookup_lt _ _ (lookupE_ok_val _ _ hfa)
              · simp at h1
                exact h1 ▸ multiclassLookup_lt _ _ (lookupE_ok_val _ _ hfb)

theorem binaryStep_foldl (csv : List Row) (d : List (String × List Nat)) :
    csv.foldl binaryStep d = d.map (fun p =>
      (p.1, p.2 ++ csv.map (fun r =>
        if emotionHit p.1 r then BINARY_LABEL_MAP_Positive else BINARY_LABEL_MAP_Negative))) := by
  induction csv generalizing d with
  | nil => simp
  | cons r rs ih =>
      simp only [List.foldl_cons, ih, binaryStep, List.map_map, List.map_cons]
      apply List.map_congr_left
      intro p _
      simp [List.append_assoc]

theorem binaryLabels_eq_map (csv : List Row) :
    binaryLabels csv = MULTICLASS_LABEL_MAP.map (fun q =>
      (q.1, csv.map (fun r =>
        if emotionHit q.1 r then BINARY_LABEL_MAP_Positive else BINARY_LABEL_MAP_Negative))) := by
  unfold binaryLabels
  rw [binaryStep_foldl]
  simp [List.map_map, Function.comp]

theorem emotionHit_iff (e : String) (r : Row) :
    emotionHit e r = true ↔ (e = r.emotionA ∨ r.emotionB = some e) := by
  simp [emotionHit]

/-! ### Claim theorems -/

/-- Claim C1 (code_bug): the spec says binary mode runs the full pipeline, and
the code clearly intends it to (the --multiclass flag, the num_labels=2
branch, the binary metrics file name), but for every input CSV the binary-mode
run of main builds the nine binary label lists and then raises: load_data
returns the tuple (df, binary_labels), main binds the tuple to df, and
display_emotion_counts indexes the tuple with a list of column names, a
TypeError. -/
theorem binary_mode_pipeline_crashes (model_id : String) (csv : List Row)
    (evalFn : Nat → FoldMetrics) (env : Nat) :
    load_data csv false = Except.ok (LoadResult.pair csv (binaryLabels csv)) ∧
      main model_id false csv evalFn env =
        Except.error (PyError.typeError "tuple indices must be integers or slices, not list") := by
  constructor
  · rfl
  · rfl

/-- Claim C2 (counterexample): two rows that agree on emotion-A ('Joy') and
carry different present valid emotion-B values ('Sadness' vs 'Anger')
nevertheless receive identical 'labels' values: the list produced by
multiclass load_data is [0, 0]. -/
theorem multiclass_labels_equal_despite_different_emotionB :
    loadDataMulticlass
        [{ sentence := "a", emotionA := "Joy", emotionB := some "Sadness" },
         { sentence := "b", emotionA := "Joy", emotionB := some "Anger" }] =
      Except.ok
        { rows := [{ sentence := "a", emotionA := "Joy", emotionB := some "Sadness" },
                   { sentence := "b", emotionA := "Joy", emotionB := some "Anger" }],
          labels := [0, 0] } := by
  rfl

/-- Claim C2 (amended): the flattening step of load_data line 45 keeps only the
first element of each per-row label list, so the final multiclass 'labels'
value of every row equals MULTICLASS_LABEL_MAP[emotion-A] and does not depend
on the row's emotion-B value (emotion-B influences only whether a KeyError is
raised). -/
theorem multiclass_label_depends_only_on_emotionA (csv : List Row) (df : LoadedDf)
    (h : loadDataMulticlass csv = Except.ok df) :
    df.labels.length = csv.length ∧
      ∀ i (hi : i < csv.length) (hl : i < df.labels.length),
        df.labels.get ⟨i, hl⟩ = (multiclassLookup ((csv.get ⟨i, hi⟩).emotionA)).getD 0 := by
  unfold loadDataMulticlass at h
  cases hm : exceptMapList rowLabelList csv with
  | error e => simp [hm] at h
  | ok lists =>
      simp [hm] at h
      subst h
      obtain ⟨hlen, hget⟩ := exceptMapList_ok_get rowLabelList csv lists hm
      refine ⟨by simp [hlen], ?_⟩
      intro i hi hl
      have hil : i < lists.length := by simpa using hl
      simp only [List.get_eq_getElem, List.getElem_map]
      exact rowLabelList_ok_head _ _ (hget i hi hil)

/-- Witness for the amended C2 theorem at a concrete two-row CSV. -/
theorem multiclass_label_depends_only_on_emotionA_witness :
    ([(0 : Nat), 0] : List Nat).length =
        ([{ sentence := "a", emotionA := "Joy", emotionB := some "Sadness" },
          { sentence := "b", emotionA := "Joy", emotionB := some "Anger" }] : List Row).length ∧
      ∀ i (hi : i < ([{ sentence := "a", emotionA := "Joy", emotionB := some "Sadness" },
          { sentence := "b", emotionA := "Joy", emotionB := some "Anger" }] : List Row).length)
        (hl : i < ([(0 : Nat), 0] : List Nat).length),
        ([(0 : Nat), 0] : List Nat).get ⟨i, hl⟩ =
          (multiclassLookup ((([{ sentence := "a", emotionA := "Joy", emotionB := some "Sadness" },
            { sentence := "b", emotionA := "Joy", emotionB := some "Anger" }] : List Row).get
              ⟨i, hi⟩).emotionA)).getD 0 := by
  exact multiclass_label_depends_only_on_emotionA _
    { rows := [{ sentence := "a", emotionA := "Joy", emotionB := some "Sadness" },
               { sentence := "b", emotionA := "Joy", emotionB := some "Anger" }],
      labels := [0, 0] } rfl

/-- Claim C3 (confirmed): binary-mode load_data produces nine label lists, one
per emotion of MULTICLASS_LABEL_MAP in order; each list has one entry per
input row, and the entry of emotion e at row r is 1 exactly when e equals r's
emotion-A value or r's emotion-B value, and 0 otherwise. -/
theorem binary_labels_spec (csv : List Row) :
    (binaryLabels csv).length = 9 ∧
      (binaryLabels csv).map Prod.fst = MULTICLASS_LABEL_MAP.map Prod.fst ∧
      ∀ p ∈ binaryLabels csv, p.2.length = csv.length ∧
        ∀ i (hi : i < csv.length) (hl : i < p.2.length),
          (p.2.get ⟨i, hl⟩ = 1 ∨ p.2.get ⟨i, hl⟩ = 0) ∧
          (p.2.get ⟨i, hl⟩ = 1 ↔
            (p.1 = (csv.get ⟨i, hi⟩).emotionA ∨ (csv.get ⟨i, hi⟩).emotionB = some p.1)) := by
  rw [binaryLabels_eq_map]
  refine ⟨by rfl, by simp, ?_⟩
  intro p hp
  obtain ⟨q, hq, rfl⟩ := List.mem_map.mp hp
  refine ⟨by simp, ?_⟩
  intro i hi hl
  simp only [List.get_eq_getElem, List.getElem_map]
  by_cases hhit : emotionHit q.1 csv[i] = true
  · simp only [hhit, if_true]
    exact ⟨Or.inl rfl, iff_of_true rfl ((emotionHit_iff _ _).mp hhit)⟩
  · simp only [hhit, if_false, Bool.false_eq_true]
    refine ⟨Or.inr rfl, iff_of_false (by simp [BINARY_LABEL_MAP_Negative]) ?_⟩
    intro hcon
    exact hhit ((emotionHit_iff _ _).mpr hcon)

/-- Witness for C3 at a concrete one-row CSV: the Joy list is [1] and its
entry is 1 exactly because Joy is the row's emotion-A. -/
theorem binary_labels_spec_witness :
    ("Joy", ([1] : List Nat)) ∈
        binaryLabels [{ sentence := "a", emotionA := "Joy", emotionB := some "Trust" }] ∧
      (([1] : List Nat).get ⟨0, by decide⟩ = 1 ↔
        ("Joy" = ({ sentence := "a", emotionA := "Joy", emotionB := some "Trust" } : Row).emotionA ∨
          ({ sentence := "a", emotionA := "Joy", emotionB := some "Trust" } : Row).emotionB =
            some "Joy")) := by
  have hmem : ("Joy", ([1] : List Nat)) ∈
      binaryLabels [{ sentence := "a", emotionA := "Joy", emotionB := some "Trust" }] := by
    decide
  exact ⟨hmem,
    ((binary_labels_spec [{ sentence := "a", emotionA := "Joy", emotionB := some "Trust" }]).2.2
      ("Joy", [1]) hmem).2 0 (by decide) (by decide) |>.2⟩

/-- Claim C5 (confirmed): for a non-empty list of fold metric records,
aggregate_metrics returns the arithmetic mean over folds of eval_accuracy, and
for precision, recall and f1 the mean over folds of each fold's mean over its
per-class list. -/
theorem aggregate_metrics_spec (fms : List FoldMetrics) (h : fms ≠ []) :
    (aggregate_metrics fms).accuracy =
        (fms.map FoldMetrics.eval_accuracy).sum / ((fms.length : ℚ)) ∧
      (aggregate_metrics fms).precision =
        (fms.map (fun m => m.eval_precision.sum / ((m.eval_precision.length : ℚ)))).sum /
          ((fms.length : ℚ)) ∧
      (aggregate_metrics fms).recall_ =
        (fms.map (fun m => m.eval_recall.sum / ((m.eval_recall.length : ℚ)))).sum /
          ((fms.length : ℚ)) ∧
      (aggregate_metrics fms).f1 =
        (fms.map (fun m => m.eval_f1.sum / ((m.eval_f1.length : ℚ)))).sum /
          ((fms.length : ℚ)) := by
  refine ⟨?_, ?_, ?_, ?_⟩ <;> simp [aggregate_metrics, npMean, List.length_map]

/-- Witness for C5 at a concrete two-fold list of metric records. -/
theorem aggregate_metrics_spec_witness :
    ([⟨1, [1, 0], [1], [0]⟩, ⟨0, [0], [1, 1], [1]⟩] : List FoldMetrics) ≠ [] ∧
      ((aggregate_metrics [⟨1, [1, 0], [1], [0]⟩, ⟨0, [0], [1, 1], [1]⟩]).accuracy =
          (([⟨1, [1, 0], [1], [0]⟩, ⟨0, [0], [1, 1], [1]⟩] : List FoldMetrics).map
            FoldMetrics.eval_accuracy).sum / ((2 : ℚ)) ∧
        (aggregate_metrics [⟨1, [1, 0], [1], [0]⟩, ⟨0, [0], [1, 1], [1]⟩]).precision =
          (([⟨1, [1, 0], [1], [0]⟩, ⟨0, [0], [1, 1], [1]⟩] : List FoldMetrics).map
            (fun m => m.eval_precision.sum / ((m.eval_precision.length : ℚ)))).sum / ((2 : ℚ))) := by
  refine ⟨List.cons_ne_nil _ _, ?_, ?_⟩
  · exact (aggregate_metrics_spec _ (List.cons_ne_nil _ _)).1
  · exact (aggregate_metrics_spec _ (List.cons_ne_nil _ _)).2.1

/-- Claim C8 (confirmed): the splits of cross_validate_model are deterministic;
because StratifiedKFold is built with the fixed random_state 42, the yielded
splits and the per-fold runs do not depend on the ambient entropy of the
execution, so two executions on the same texts and labels produce identical
sequences of (train_idx, test_idx) splits. -/
theorem cross_validation_deterministic (k env1 env2 : Nat) (labels : List Int)
    (model_id : String) (texts : List String) (multiclass : Bool) :
    crossValidateSplits k env1 labels = crossValidateSplits k env2 labels ∧
      crossValidateRuns model_id texts labels k multiclass env1 =
        crossValidateRuns model_id texts labels k multiclass env2 :=
  ⟨rfl, rfl⟩

/-- Claim C10 (confirmed): preprocess_data returns the labels argument itself
as its second component, unchanged; tokenization affects only the returned
encodings. -/
theorem preprocess_data_preserves_labels (texts : List String) (labels : List Int)
    (tok : Tokenizer) :
    (preprocess_data texts labels tok).2 = labels ∧
      (preprocess_data texts labels tok).1 = tokenizeBatch tok texts :=
  ⟨rfl, rfl⟩

theorem exceptMapList_ok_mem (f : α → Except ε β) (l : List α) (bs : List β)
    (h : exceptMapList f l = Except.ok bs) : ∀ b ∈ bs, ∃ a ∈ l, f a = Except.ok b := by
  intro b hb
  obtain ⟨hlen, hget⟩ := exceptMapList_ok_get f l bs h
  obtain ⟨⟨i, hbi⟩, hgetb⟩ := List.mem_iff_get.mp hb
  have hi : i < l.length := by omega
  exact ⟨l.get ⟨i, hi⟩, List.get_mem l i hi, by rw [hget i hi hbi, hgetb]⟩

theorem flattenLabel_lt (v : List Nat) (h : ∀ x ∈ v, x < 9) : flattenLabel v < 9 := by
  cases v with
  | nil => decide
  | cons x xs => exact h x (List.mem_cons_self x xs)

/-- Claim C9 (confirmed): multiclass load_data succeeds exactly when every
row's emotion-A and every present emotion-B are keys of MULTICLASS_LABEL_MAP;
any failure is a KeyError carrying a key absent from the map; and on success
every produced label is below 9, the num_labels with which the classification
model is loaded in multiclass mode. -/
theorem multiclass_load_validity (csv : List Row) :
    ((∃ df, loadDataMulticlass csv = Except.ok df) ↔
        ∀ r ∈ csv, (multiclassLookup r.emotionA).isSome ∧
          ∀ b, r.emotionB = some b → (multiclassLookup b).isSome) ∧
      (∀ e, loadDataMulticlass csv = Except.error e →
        ∃ s, e = PyError.keyError s ∧ multiclassLookup s = none) ∧
      num_labels true = 9 ∧
      (∀ df, loadDataMulticlass csv = Except.ok df → ∀ l ∈ df.labels, l < num_labels true) := by
  refine ⟨?_, ?_, rfl, ?_⟩
  · constructor
    · rintro ⟨df, hdf⟩
      unfold loadDataMulticlass at hdf
      cases hm : exceptMapList rowLabelList csv with
      | error e => simp [hm] at hdf
      | ok lists =>
          intro r hr
          obtain ⟨v, hv⟩ := (exceptMapList_ok_iff rowLabelList csv).mp ⟨lists, hm⟩ r hr
          exact (rowLabelList_ok_iff r).mp ⟨v, hv⟩
    · intro hall
      obtain ⟨lists, hm⟩ := (exceptMapList_ok_iff rowLabelList csv).mpr
        (fun r hr => (rowLabelList_ok_iff r).mpr (hall r hr))
      exact ⟨{ rows := csv, labels := lists.map flattenLabel }, by simp [loadDataMulticlass, hm]⟩
  · intro e he
    unfold loadDataMulticlass at he
    cases hm : exceptMapList rowLabelList csv with
    | error e2 =>
        simp [hm] at he
        obtain ⟨r, _, hr⟩ := exceptMapList_error rowLabelList csv e2 hm
        exact he ▸ rowLabelList_error r e2 hr
    | ok lists => simp [hm] at he
  · intro df hdf l hl
    unfold loadDataMulticlass at hdf
    cases hm : exceptMapList rowLabelList csv with
    | error e => simp [hm] at hdf
    | ok lists =>
        simp [hm] at hdf
        rw [← hdf] at hl
        simp only [List.mem_map] at hl
        obtain ⟨v, hv, rfl⟩ := hl
        obtain ⟨r, _, hr⟩ := exceptMapList_ok_mem rowLabelList csv lists hm v hv
        exact flattenLabel_lt v (rowLabelList_ok_lt r v hr)

/-- Witness for C9 at a concrete one-row CSV: loading succeeds and the label 0
is below num_labels. -/
theorem multiclass_load_validity_witness :
    (∃ df, loadDataMulticlass [{ sentence := "a", emotionA := "Joy", emotionB := some "Trust" }] =
        Except.ok df) ∧
      (0 : Nat) < num_labels true := by
  refine ⟨(multiclass_load_validity _).1.mpr (by decide), ?_⟩
  exact (multiclass_load_validity
      [{ sentence := "a", emotionA := "Joy", emotionB := some "Trust" }]).2.2.2
    { rows := [{ sentence := "a", emotionA := "Joy", emotionB := some "Trust" }], labels := [0] }
    rfl 0 (by decide)

theorem npArgmaxAux_spec (xs : List ℚ) : ∀ (best : ℚ) (bi i : Nat),
    (npArgmaxAux xs best bi i = bi ∧ ∀ x ∈ xs, x ≤ best) ∨
      (∃ j, ∃ hj : j < xs.length, npArgmaxAux xs best bi i = i + j ∧
        best < xs.get ⟨j, hj⟩ ∧ (∀ x ∈ xs, x ≤ xs.get ⟨j, hj⟩) ∧
        (∀ j2 (h2 : j2 < xs.length), j2 < j → xs.get ⟨j2, h2⟩ < xs.get ⟨j, hj⟩)) := by
  induction xs with
  | nil =>
      intro best bi i
      left
      exact ⟨rfl, by simp⟩
  | cons x xs ih =>
      intro best bi i
      by_cases hlt : best < x
      · rcases ih x i (i + 1) with ⟨heq, hmax⟩ | ⟨j, hj, heq, hbetter, hmax, hfirst⟩
        · right
          refine ⟨0, by simp, ?_, by simpa using hlt, ?_, ?_⟩
          · simpa [npArgmaxAux, hlt] using heq
          · intro y hy
            rcases List.mem_cons.mp hy with rfl | hy2
            · simp
            · simpa using hmax y hy2
          · intro j2 h2 hj2
            omega
        · right
          refine ⟨j + 1, by simpa using Nat.succ_lt_succ hj, ?_, ?_, ?_, ?_⟩
          · have : npArgmaxAux (x :: xs) best bi i = (i + 1) + j := by
              simpa [npArgmaxAux, hlt] using heq
            rw [this]
            omega
          · simp only [List.get_cons_succ]
            exact lt_trans hlt hbetter
          · intro y hy
            rcases List.mem_cons.mp hy with rfl | hy2
            · simp only [List.get_cons_succ]
              exact le_of_lt hbetter
            · simpa using hmax y hy2
          · intro j2 h2 hj2
            cases j2 with
            | zero =>
                simp only [List.get_cons_succ, List.get_cons_zero]
                exact hbetter
            | succ k =>
                simp only [List.get_cons_succ]
                exact hfirst k (by simpa using h2) (by omega)
      · rcases ih best bi (i + 1) with ⟨heq, hmax⟩ | ⟨j, hj, heq, hbetter, hmax, hfirst⟩
        · left
          refine ⟨by simpa [npArgmaxAux, hlt] using heq, ?_⟩
          intro y hy
          rcases List.mem_cons.mp hy with rfl | hy2
          · exact le_of_not_lt hlt
          · exact hmax y hy2
        · right
          refine ⟨j + 1, by simpa using Nat.succ_lt_succ hj, ?_, ?_, ?_, ?_⟩
          · have : npArgmaxAux (x :: xs) best bi i = (i + 1) + j := by
              simpa [npArgmaxAux, hlt] using heq
            rw [this]
            omega
          · simp only [List.get_cons_succ]
            exact hbetter
          · intro y hy
            rcases List.mem_cons.mp hy with rfl | hy2
            · simp only [List.get_cons_succ]
              exact le_trans (le_of_not_lt hlt) (le_of_lt hbetter)
            · simpa using hmax y hy2
          · intro j2 h2 hj2
            cases j2 with
            | zero =>
                simp only [List.get_cons_succ, List.get_cons_zero]
                exact lt_of_le_of_lt (le_of_not_lt hlt) hbetter
            | succ k =>
                simp only [List.get_cons_succ]
                exact hfirst k (by simpa using h2) (by omega)

theorem npArgmax_spec (l : List ℚ) (hne : l ≠ []) :
    npArgmax l < l.length ∧
      (∀ i (hi : i < l.length), l.get ⟨i, hi⟩ ≤ l.getD (npArgmax l) 0) ∧
      (∀ j (hj : j < l.length), j < npArgmax l → l.get ⟨j, hj⟩ < l.getD (npArgmax l) 0) := by
  cases l with
  | nil => exact absurd rfl hne
  | cons x xs =>
      have hx : npArgmax (x :: xs) = npArgmaxAux xs x 0 1 := rfl
      rcases npArgmaxAux_spec xs x 0 1 with ⟨heq, hmax⟩ | ⟨j, hj, heq, hbetter, hmax, hfirst⟩
      · rw [hx, heq]
        refine ⟨by simp, ?_, ?_⟩
        · intro i hi
          cases i with
          | zero => simp
          | succ k =>
              simp only [List.get_cons_succ, List.getD]
              simpa using hmax _ (List.get_mem xs k (by simpa using hi))
        · intro j2 hj2 hcon
          omega
      · rw [hx, heq]
        have hgd : (x :: xs).getD (1 + j) 0 = xs.get ⟨j, hj⟩ := by
          have h1j : 1 + j = j + 1 := by omega
          rw [h1j]
          simp [List.getD, List.getElem?_cons_succ, List.getElem?_eq_getElem hj]
        refine ⟨by simp only [List.length_cons]; omega, ?_, ?_⟩
        · intro i hi
          rw [hgd]
          cases i with
          | zero => exact le_of_lt hbetter
          | succ k =>
              simp only [List.get_cons_succ]
              exact hmax _ (List.get_mem xs k (by simpa using hi))
        · intro j2 hj2 hcon
          rw [hgd]
          cases j2 with
          | zero => exact hbetter
          | succ k =>
              simp only [List.get_cons_succ]
              exact hfirst k (by simpa using hj2) (by omega)

/-- Claim C6 (confirmed): compute_metrics takes each sample's predicted class
as the argmax of its score row (an index of a maximal score, first on ties),
reports accuracy as the fraction of samples whose predicted class equals the
true label, and reports precision, recall and f1 as per-class lists over the
present classes, with no averaging across classes. -/
theorem compute_metrics_spec (probs : List (List ℚ)) (labels : List Nat)
    (hne : probs ≠ []) :
    (compute_metrics probs labels).accuracy =
        (((labels.zip (probs.map npArgmax)).countP (fun p => p.1 == p.2) : ℚ)) /
          ((labels.length : ℚ)) ∧
      (compute_metrics probs labels).precision =
        (presentClasses labels (probs.map npArgmax)).map
          (precisionClass labels (probs.map npArgmax)) ∧
      (compute_metrics probs labels).recall_ =
        (presentClasses labels (probs.map npArgmax)).map
          (recallClass labels (probs.map npArgmax)) ∧
      (compute_metrics probs labels).f1 =
        (presentClasses labels (probs.map npArgmax)).map
          (f1Class labels (probs.map npArgmax)) ∧
      ∀ row ∈ probs, row ≠ [] →
        npArgmax row < row.length ∧
          ∀ i (hi : i < row.length), row.get ⟨i, hi⟩ ≤ row.getD (npArgmax row) 0 := by
  refine ⟨rfl, rfl, rfl, rfl, ?_⟩
  intro row _ hrow
  exact ⟨(npArgmax_spec row hrow).1, (npArgmax_spec row hrow).2.1⟩

/-- Witness for C6 at a concrete two-sample prediction matrix. -/
theorem compute_metrics_spec_witness :
    ([[(1 : ℚ)/10, 9/10], [(4 : ℚ)/5, 1/5]] : List (List ℚ)) ≠ [] ∧
      (compute_metrics [[(1 : ℚ)/10, 9/10], [(4 : ℚ)/5, 1/5]] [1, 0]).accuracy =
        (((([1, 0] : List Nat).zip
            (([[(1 : ℚ)/10, 9/10], [(4 : ℚ)/5, 1/5]] : List (List ℚ)).map npArgmax)).countP
              (fun p => p.1 == p.2) : ℚ)) / ((([1, 0] : List Nat).length : ℚ)) :=
  ⟨List.cons_ne_nil _ _, (compute_metrics_spec _ [1, 0] (List.cons_ne_nil _ _)).1⟩

theorem mem_npShuffle (seed : Nat) (l : List Nat) (a : Nat) :
    a ∈ npShuffle seed l ↔ a ∈ l :=
  List.mem_mergeSort

theorem mem_classMembers (labels : List Int) (c : Int) (j : Nat) :
    j ∈ classMembers labels c ↔ j < labels.length ∧ labels.getD j 0 = c := by
  simp [classMembers, List.mem_filter, List.mem_range]

theorem foldSizes_length (k n : Nat) : (foldSizes k n).length = k := by
  simp [foldSizes]

theorem foldSizes_sum (k n : Nat) (hk : 0 < k) : (foldSizes k n).sum = n := by
  have h1 : (foldSizes k n).sum = ∑ i in Finset.range k, (n / k + if i < n % k then 1 else 0) :=
    rfl
  rw [h1, Finset.sum_add_distrib, Finset.sum_const, Finset.card_range, Finset.sum_boole]
  have h2 : (Finset.range k).filter (fun i => i < n % k) = Finset.range (n % k) := by
    ext i
    simp only [Finset.mem_filter, Finset.mem_range]
    constructor
    · rintro ⟨_, h⟩
      exact h
    · intro h
      exact ⟨lt_of_lt_of_le h (le_of_lt (Nat.mod_lt n hk)), h⟩
  rw [h2]
  simp only [Finset.card_range, Nat.cast_id, smul_eq_mul]
  exact Nat.div_add_mod n k

theorem foldOfPos_lt (sizes : List Nat) (p : Nat) (h : p < sizes.sum) :
    foldOfPos sizes p < sizes.length := by
  induction sizes generalizing p with
  | nil => simp at h
  | cons s rest ih =>
      unfold foldOfPos
      by_cases hp : p < s
      · simp [hp]
      · simp only [hp, if_false]
        have : p - s < rest.sum := by
          simp only [List.sum_cons] at h
          omega
        simpa using Nat.succ_lt_succ (ih (p - s) this)

theorem testFoldOf_lt (k seed : Nat) (labels : List Int) (j : Nat)
    (hk : 0 < k) (hj : j < labels.length) : testFoldOf k seed labels j < k := by
  unfold testFoldOf
  have hjm : j ∈ npShuffle seed (classMembers labels (labels.getD j 0)) :=
    (mem_npShuffle _ _ _).mpr ((mem_classMembers _ _ _).mpr ⟨hj, rfl⟩)
  have hidx : (npShuffle seed (classMembers labels (labels.getD j 0))).indexOf j <
      (npShuffle seed (classMembers labels (labels.getD j 0))).length :=
    List.indexOf_lt_length.mpr hjm
  have hlt := foldOfPos_lt
    (foldSizes k (npShuffle seed (classMembers labels (labels.getD j 0))).length)
    ((npShuffle seed (classMembers labels (labels.getD j 0))).indexOf j)
    (by rw [foldSizes_sum _ _ hk]; exact hidx)
  rw [foldSizes_length] at hlt
  exact hlt

theorem mem_testIdx (k seed : Nat) (labels : List Int) (i j : Nat) :
    j ∈ testIdx k seed labels i ↔ j < labels.length ∧ testFoldOf k seed labels j = i := by
  simp [testIdx, List.mem_filter, List.mem_range]

theorem mem_trainIdx (k seed : Nat) (labels : List Int) (i j : Nat) :
    j ∈ trainIdx k seed labels i ↔ j < labels.length ∧ ¬ testFoldOf k seed labels j = i := by
  simp [trainIdx, List.mem_filter, List.mem_range]

theorem skfSplit_length (k seed : Nat) (labels : List Int) :
    (skfSplit k seed labels).length = k := by
  simp [skfSplit]

/-- Claim C4 (confirmed): cross_validate_model enumerates exactly k=10 folds;
the i-th run's test set is the splitter's i-th test fold; in every fold the
train and test index lists contain only sample indices, are disjoint, and
together cover all sample indices; each test list has no duplicates and every
sample index belongs to the test fold of exactly one of the 10 folds; and each
fold freshly loads the pretrained model (with the mode's num_labels) and
fine-tunes it on exactly the samples selected by that fold's train indices. -/
theorem cross_validation_folds_spec (model_id : String) (texts : List String)
    (labels : List Int) (multiclass : Bool) (env : Nat) :
    (crossValidateRuns model_id texts labels 10 multiclass env).length = 10 ∧
      (crossValidateRuns model_id texts labels 10 multiclass env).map FoldRun.testIdx =
        (List.range 10).map (testIdx 10 42 labels) ∧
      (∀ fr ∈ crossValidateRuns model_id texts labels 10 multiclass env,
        (∀ j, j ∈ fr.trainIdx → j < labels.length) ∧
          (∀ j, j ∈ fr.testIdx → j < labels.length) ∧
          (∀ j, j < labels.length → (j ∈ fr.trainIdx ↔ ¬ j ∈ fr.testIdx)) ∧
          fr.testIdx.Nodup ∧
          fr.model = { modelId := model_id, numLabels := num_labels multiclass } ∧
          fr.trainTexts = selectIdx texts "" fr.trainIdx ∧
          fr.trainLabels = selectIdx labels 0 fr.trainIdx) ∧
      (∀ j, j < labels.length → ∃! i, i < 10 ∧ j ∈ testIdx 10 42 labels i) := by
  refine ⟨?_, ?_, ?_, ?_⟩
  · simp [crossValidateRuns, crossValidateSplits, stratifiedKFoldSplit, skfSplit]
  · simp only [crossValidateRuns, crossValidateSplits, stratifiedKFoldSplit, effectiveSeed,
      Option.getD, skfSplit, List.map_map]
    apply List.map_congr_left
    intro i _
    rfl
  · intro fr hfr
    simp only [crossValidateRuns, crossValidateSplits, stratifiedKFoldSplit, effectiveSeed,
      Option.getD, skfSplit, List.map_map, List.mem_map, List.mem_range] at hfr
    obtain ⟨i, _, rfl⟩ := hfr
    dsimp only [Function.comp]
    refine ⟨?_, ?_, ?_, ?_, rfl, rfl, rfl⟩
    · intro j hj
      exact ((mem_trainIdx _ _ _ _ _).mp hj).1
    · intro j hj
      exact ((mem_testIdx _ _ _ _ _).mp hj).1
    · intro j hj
      rw [mem_trainIdx, mem_testIdx]
      constructor
      · rintro ⟨_, hne⟩ ⟨_, heq⟩
        exact hne heq
      · intro hnot
        refine ⟨hj, ?_⟩
        intro heq
        exact hnot ⟨hj, heq⟩
    · exact List.Nodup.filter _ (List.nodup_range _)
  · intro j hj
    refine ⟨testFoldOf 10 42 labels j,
      ⟨testFoldOf_lt 10 42 labels j (by norm_num) hj, (mem_testIdx _ _ _ _ _).mpr ⟨hj, rfl⟩⟩, ?_⟩
    rintro y ⟨_, hmem⟩
    exact ((mem_testIdx _ _ _ _ _).mp hmem).2.symm

/-- Witness for C4 at a concrete two-sample dataset. -/
theorem cross_validation_folds_spec_witness :
    (crossValidateRuns "m" ["a", "b"] [0, 1] 10 true 0).length = 10 ∧
      (∃! i, i < 10 ∧ 0 ∈ testIdx 10 42 [0, 1] i) :=
  ⟨(cross_validation_folds_spec "m" ["a", "b"] [0, 1] true 0).1,
    (cross_validation_folds_spec "m" ["a", "b"] [0, 1] true 0).2.2.2 0 (by decide)⟩

theorem cross_validate_model_eq (texts : List String) (labels : List Int) (env : Nat)
    (od : String) (evalFn : Nat → FoldMetrics) :
    cross_validate_model texts labels 10 env od evalFn =
      ({ path := od ++ "/fold_metrics.csv",
         records := (List.range 10).map (fun (fold : Nat) =>
           ("fold", PyVal.num (((fold : ℚ)) + 1)) :: foldMetricsFields (evalFn fold)) },
       aggregate_metrics ((List.range 10).map evalFn)) := by
  unfold cross_validate_model
  have hlen : (crossValidateSplits 10 env labels).length = 10 := by
    simp [crossValidateSplits, stratifiedKFoldSplit, skfSplit]
  simp only [hlen]

/-- Claim C7 (confirmed): whenever loading produced a dataframe (so
cross-validation runs to completion), main persists a fold_metrics.csv under
the output directory whose ten records carry a 'fold' column valued fold+1 for
fold = 0..9, i.e. numbered 1 through 10, each together with that fold's
evaluation metrics, and persists the aggregated average metrics as a
single-record CSV named '\x7bmodel-id\x7d-multiclass_metrics.csv' or
'\x7bmodel-id\x7d-binary_metrics.csv' under ./evaluation. -/
theorem persistence_spec (model_id : String) (multiclass : Bool) (csv : List Row)
    (evalFn : Nat → FoldMetrics) (env : Nat) (df : LoadedDf)
    (h : load_data csv multiclass = Except.ok (LoadResult.frame df)) :
    main model_id multiclass csv evalFn env =
      Except.ok
        [{ path := "./evaluation/fold_metrics.csv",
           records := (List.range 10).map (fun (fold : Nat) =>
             ("fold", PyVal.num (((fold : ℚ)) + 1)) :: foldMetricsFields (evalFn fold)) },
         save_metrics (aggregate_metrics ((List.range 10).map evalFn))
           (avgMetricsCsvPath model_id multiclass)] ∧
      avgMetricsCsvPath model_id multiclass =
        "./evaluation/" ++ model_id ++ "-" ++
          (if multiclass then "multiclass" else "binary") ++ "_metrics.csv" ∧
      (save_metrics (aggregate_metrics ((List.range 10).map evalFn))
          (avgMetricsCsvPath model_id multiclass)).records.length = 1 := by
  refine ⟨?_, rfl, rfl⟩
  unfold main
  rw [h]
  simp only [Bind.bind, Except.bind, display_emotion_counts, getColumnTexts, getColumnLabels,
    cross_validate_model_eq, pure, Except.pure]
  rfl

/-- Witness for C7 at a concrete multiclass run. -/
theorem persistence_spec_witness :
    main "m" true [{ sentence := "a", emotionA := "Joy", emotionB := none }]
        (fun _ => (⟨0, [], [], []⟩ : FoldMetrics)) 0 =
      Except.ok
        [{ path := "./evaluation/fold_metrics.csv",
           records := (List.range 10).map (fun (fold : Nat) =>
             ("fold", PyVal.num (((fold : ℚ)) + 1)) ::
               foldMetricsFields ((fun _ => (⟨0, [], [], []⟩ : FoldMetrics)) fold)) },
         save_metrics
           (aggregate_metrics ((List.range 10).map (fun _ => (⟨0, [], [], []⟩ : FoldMetrics))))
           (avgMetricsCsvPath "m" true)] ∧
      avgMetricsCsvPath "m" true =
        "./evaluation/" ++ "m" ++ "-" ++ (if true then "multiclass" else "binary") ++
          "_metrics.csv" ∧
      (save_metrics
          (aggregate_metrics ((List.range 10).map (fun _ => (⟨0, [], [], []⟩ : FoldMetrics))))
          (avgMetricsCsvPath "m" true)).records.length = 1 :=
  persistence_spec "m" true [{ sentence := "a", emotionA := "Joy", emotionB := none }]
    (fun _ => (⟨0, [], [], []⟩ : FoldMetrics)) 0
    { rows := [{ sentence := "a", emotionA := "Joy", emotionB := none }], labels := [0] }
    rfl

end FineTuning
